import Mathlib

/-!
Shallow embedding of the CatBoost forest-scorer implementations of this
repository (src/unnamed/part_001, src/unnamed/part_002, src/unnamed/part_003,
src/experiments/baseline_wrapper.cpp, src/experiments/categorical_optimized.cpp,
src/experiments/fully_optimized.cpp).

Embedding conventions:
* C `float`/`double` values are embedded as `ℚ`: the only floating-point
  operations the scorers perform on raw features are order comparisons
  (`x > border`), which are modelled by the order on `ℚ`; the final
  scale/bias arithmetic is modelled exactly.
* C `unsigned char` accumulators are embedded as `ℕ` with an explicit
  `% 256` at every assignment/compound-assignment, matching the modular
  semantics of byte arithmetic.
* C `(int)` truncation of a float is embedded by `cint` (truncation
  toward zero on `ℚ`).
* Out-of-bounds array reads and `std::unordered_map::at` on a missing key
  are undefined behaviour / exceptions in the source; fallible paths are
  embedded in `Option`, with `none` standing for those outcomes.
* The model tables of models/baseline.cpp (`CatboostModelStatic`) and its
  helper `CalcCtrs` are not part of the repository sources available here,
  so scorers are parameterised by a `CatboostModel` record that carries
  exactly the fields the sources read, and `CalcCtrs` is an opaque
  function field that every implementation calls with identical arguments.
-/

/-- Truncation of a rational toward zero, the semantics of C's
`static_cast<int>` on a float value (`Int.tdiv` is T-division). -/
def cint (q : ℚ) : ℤ := Int.tdiv q.num (q.den : ℤ)

/-- Hash table for the `cut` categorical feature, from src/unnamed/part_001
(`cutHashes`), identical in categorical_optimized.cpp and fully_optimized.cpp
(`CUT_HASHES`). -/
def cutHashes : List ℤ := [1754990671, -570237862, 1700310925, 1933222421, 610519841]

/-- Hash table for the `color` categorical feature (`COLOR_HASHES`). -/
def colorHashes : List ℤ :=
  [-1095458675, 1348280313, -472349076, -896563403, -1292729504, 1719715171, -204260682]

/-- Hash table for the `clarity` categorical feature (`CLARITY_HASHES`). -/
def clarityHashes : List ℤ :=
  [-1581449724, 579192095, -1896862659, 2143106594, 88967919, 1708347785, 1353923139, -117150168]

/-- The sentinel hash `0x7fFFffFF` used for out-of-range categorical indices. -/
def sentinelHash : ℤ := 2147483647

/-- Bounds-checked categorical hash lookup shared verbatim by part_001,
categorical_optimized.cpp and fully_optimized.cpp:
`(idx >= 0 && idx < n) ? TABLE[idx] : 0x7fFFffFF`. -/
def resolveHash (table : List ℤ) (n : ℤ) (q : ℚ) : ℤ :=
  let i := cint q
  if 0 ≤ i ∧ i < n then table.getD i.toNat 0 else sentinelHash

/-- Modelled from the spec: the immutable model of models/baseline.cpp
(`CatboostModelStatic`), which is not among the repository sources here.
Fields follow spec §3 and carry exactly the data the scorers in src/ read.
`CalcCtrs` (the CTR materialiser of baseline.cpp, spec §4.2) is kept opaque:
every scorer calls it with identical arguments, so its definition never
matters for the claims below. -/
structure CatboostModel where
  FloatFeatureBorders : List (List ℚ)
  BinaryFeatureCount : ℕ
  CatFeaturesIndex : List ℤ
  OneHotCatFeatureIndex : List ℤ
  OneHotHashValues : List (List ℤ)
  UsedModelCtrsCount : ℕ
  CalcCtrs : List ℕ → List ℤ → List ℚ
  CtrFeatureBorders : List (List ℚ)
  TreeDepth : List ℕ
  TreeSplitIdxs : List ℕ
  TreeSplitFeatureIndex : List ℕ
  TreeSplitXorMask : List ℕ
  LeafValues : List ℚ
  Scale : ℚ
  Biases : List ℚ

/-- One byte-accumulator step of numeric binarization:
`accumulator += (floatFeature > border)` on an `unsigned char`. -/
def addB (x : ℚ) (acc : ℕ) (b : ℚ) : ℕ := (acc + if x > b then 1 else 0) % 256

/-- Scalar numeric binarization of one feature slot, the inner loop of
part_001 (`binaryFeaturesBuffer[binFeatureIndex] += (unsigned char)(floatFeature > border)`
over the slot's border list). -/
def binarizeScalar (borders : List ℚ) (x : ℚ) : ℕ :=
  borders.foldl (addB x) 0

/-- Loop body of the 4-borders-at-a-time binarization of
categorical_optimized.cpp: while at least four borders remain, apply four
accumulator steps, then finish the remainder scalar-wise. -/
def unroll4Go (x : ℚ) : List ℚ → ℕ → ℕ
  | b0 :: b1 :: b2 :: b3 :: rest, acc =>
      unroll4Go x rest (addB x (addB x (addB x (addB x acc b0) b1) b2) b3)
  | rest, acc => rest.foldl (addB x) acc

/-- Numeric binarization of one slot in categorical_optimized.cpp
(4-at-a-time unrolled loop plus scalar remainder). -/
def binarizeUnroll4 (borders : List ℚ) (x : ℚ) : ℕ := unroll4Go x borders 0

/-- Popcount of the 4-lane SIMD comparison bitmask
`wasm_i32x4_bitmask(wasm_f32x4_gt(splat x, [b0,b1,b2,b3]))` in
fully_optimized.cpp. -/
def pop4 (x b0 b1 b2 b3 : ℚ) : ℕ :=
  (if x > b0 then 1 else 0) + (if x > b1 then 1 else 0) +
  (if x > b2 then 1 else 0) + (if x > b3 then 1 else 0)

/-- Loop body of the SIMD binarization of fully_optimized.cpp: process 8
borders at a time (two popcount accumulator additions), then one guarded
4-border block (whose lane mask `(1 << (numBorders - j)) - 1` keeps all four
lanes because at least four borders remain), then the scalar remainder. -/
def simdGo (x : ℚ) : List ℚ → ℕ → ℕ
  | b0 :: b1 :: b2 :: b3 :: b4 :: b5 :: b6 :: b7 :: rest, acc =>
      simdGo x rest (((acc + pop4 x b0 b1 b2 b3) % 256 + pop4 x b4 b5 b6 b7) % 256)
  | b0 :: b1 :: b2 :: b3 :: rest, acc =>
      rest.foldl (addB x) ((acc + pop4 x b0 b1 b2 b3) % 256)
  | rest, acc => rest.foldl (addB x) acc

/-- Numeric binarization of one slot in fully_optimized.cpp (SIMD
bitmask/popcount path). -/
def binarizeSimd (borders : List ℚ) (x : ℚ) : ℕ := simdGo x borders 0

/-- Per-slot numeric binarization pass of part_001: iterate over every entry
of `model.FloatFeatureBorders`, skip empty border lists, write one byte per
non-empty slot. -/
def binFloatsPart001 (bordersList : List (List ℚ)) (xs : List ℚ) : List ℕ :=
  (List.range bordersList.length).filterMap (fun i =>
    let bs := bordersList.getD i []
    if bs.isEmpty then none else some (binarizeScalar bs (xs.getD i 0)))

/-- Per-slot numeric binarization pass of categorical_optimized.cpp
(`for (size_t i = 0; i < 6; ++i)` with the hardcoded float-feature count). -/
def binFloatsCatOpt (bordersList : List (List ℚ)) (xs : List ℚ) : List ℕ :=
  (List.range 6).filterMap (fun i =>
    let bs := bordersList.getD i []
    if bs.isEmpty then none else some (binarizeUnroll4 bs (xs.getD i 0)))

/-- Per-slot numeric binarization pass of fully_optimized.cpp
(`for (size_t i = 0; i < 6; ++i)`, SIMD per slot). -/
def binFloatsFully (bordersList : List (List ℚ)) (xs : List ℚ) : List ℕ :=
  (List.range 6).filterMap (fun i =>
    let bs := bordersList.getD i []
    if bs.isEmpty then none else some (binarizeSimd bs (xs.getD i 0)))

/-- Accumulating loop of the one-hot binarization shared by part_001 and
categorical_optimized.cpp:
`result |= (hash == hashValues[borderIdx]) * (borderIdx + 1)` on an
`unsigned char` accumulator, iterated over the whole hash list. -/
def oneHotOrGo (h : ℤ) : List ℤ → ℕ → ℕ → ℕ
  | [], _, res => res
  | v :: rest, idx, res =>
      oneHotOrGo h rest (idx + 1) ((res ||| (if h = v then idx + 1 else 0)) % 256)

/-- One-hot byte via the OR-accumulating loop (part_001,
categorical_optimized.cpp, and the general branch of fully_optimized.cpp). -/
def oneHotOr (hv : List ℤ) (h : ℤ) : ℕ := oneHotOrGo h hv 0 0

/-- One-hot byte in fully_optimized.cpp: arithmetic-sum specializations for
hash lists of exactly 2 or 3 entries, the OR loop otherwise. -/
def oneHotFully (hv : List ℤ) (h : ℤ) : ℕ :=
  match hv with
  | [v0, v1] => (if h = v0 then 1 else 0) + (if h = v1 then 2 else 0)
  | [v0, v1, v2] =>
      (if h = v0 then 1 else 0) + (if h = v1 then 2 else 0) + (if h = v2 then 3 else 0)
  | _ => oneHotOr hv h

/-- The value the spec assigns to a one-hot feature: the 1-based index of the
first hash-list entry equal to the slot hash, or 0 when none matches. -/
def firstMatch (hv : List ℤ) (h : ℤ) : ℕ :=
  match hv.findIdx? (fun v => v = h) with
  | some i => i + 1
  | none => 0

/-- The `catFeaturePackedIndexes` map built by every scorer:
`indexes[model.CatFeaturesIndex[i]] = i` for each `i`, so a lookup returns
the last position holding the key, or fails (`std::unordered_map::at`)
when the key is absent. -/
def packedIndex (keys : List ℤ) (k : ℤ) : Option ℕ :=
  (List.range keys.length).foldl
    (fun acc i => if keys.getD i 0 = k then some i else acc) none

/-- One-hot binarization pass over a list of feature positions: for position
`i`, resolve the packed categorical index (`.at`, fallible), read the slot
hash from the 3-entry transposed hash array (fallible on out-of-range), and
emit one byte per non-empty hash list.  All three hash-based scorers run this
loop over `List.range model.OneHotCatFeatureIndex.length`, differing only in
the per-feature byte function. -/
def oneHotBytesGo (byteFn : List ℤ → ℤ → ℕ) (M : CatboostModel)
    (hashes : List ℤ) : List ℕ → Option (List ℕ)
  | [] => some []
  | i :: rest =>
      match packedIndex M.CatFeaturesIndex (M.OneHotCatFeatureIndex.getD i 0) with
      | none => none
      | some c =>
        match hashes.get? c with
        | none => none
        | some h =>
          match oneHotBytesGo byteFn M hashes rest with
          | none => none
          | some tail =>
            some ((if (M.OneHotHashValues.getD i []).isEmpty then []
                   else [byteFn (M.OneHotHashValues.getD i []) h]) ++ tail)

/-- One-hot binarization pass (see `oneHotBytesGo`). -/
def oneHotBytes (byteFn : List ℤ → ℤ → ℕ) (M : CatboostModel)
    (hashes : List ℤ) : Option (List ℕ) :=
  oneHotBytesGo byteFn M hashes (List.range M.OneHotCatFeatureIndex.length)

/-- Read of the binarized feature byte vector: positions beyond the written
prefix hold the zero bytes the buffer was cleared to. -/
def getByte (buf : List ℕ) (i : ℕ) : ℕ := buf.getD i 0

/-- One level's split decision,
`(binaryFeaturesBuffer[featureIndex] ^ xorMask) >= borderVal` as a 0/1 bit
(unsigned byte comparison, `>=` inclusive). -/
def treeBit (buf : List ℕ) (feat mask thr : ℕ) : ℕ :=
  if thr ≤ (getByte buf feat) ^^^ mask then 1 else 0

/-- General oblivious-tree index loop (`traverseTree` in fully_optimized.cpp
and the inline loops of part_001 / categorical_optimized.cpp):
`index |= ((features[splitFeatures[d]] ^ xorMasks[d]) >= splitIdxs[d]) << d`
for `d = 0 .. depth-1`. -/
def traverseTree (buf : List ℕ) (feats idxs masks : List ℕ) (depth : ℕ) : ℕ :=
  (List.range depth).foldl
    (fun index d =>
      index ||| (treeBit buf (feats.getD d 0) (masks.getD d 0) (idxs.getD d 0)) <<< d) 0

/-- Fully unrolled depth-6 leaf index of fully_optimized.cpp (lines 185-190). -/
def unrolledIndex6 (buf : List ℕ) (feats idxs masks : List ℕ) : ℕ :=
  (treeBit buf (feats.getD 0 0) (masks.getD 0 0) (idxs.getD 0 0)) |||
  ((treeBit buf (feats.getD 1 0) (masks.getD 1 0) (idxs.getD 1 0)) <<< 1) |||
  ((treeBit buf (feats.getD 2 0) (masks.getD 2 0) (idxs.getD 2 0)) <<< 2) |||
  ((treeBit buf (feats.getD 3 0) (masks.getD 3 0) (idxs.getD 3 0)) <<< 3) |||
  ((treeBit buf (feats.getD 4 0) (masks.getD 4 0) (idxs.getD 4 0)) <<< 4) |||
  ((treeBit buf (feats.getD 5 0) (masks.getD 5 0) (idxs.getD 5 0)) <<< 5)

/-- Fully unrolled depth-5 leaf index of fully_optimized.cpp (lines 197-201). -/
def unrolledIndex5 (buf : List ℕ) (feats idxs masks : List ℕ) : ℕ :=
  (treeBit buf (feats.getD 0 0) (masks.getD 0 0) (idxs.getD 0 0)) |||
  ((treeBit buf (feats.getD 1 0) (masks.getD 1 0) (idxs.getD 1 0)) <<< 1) |||
  ((treeBit buf (feats.getD 2 0) (masks.getD 2 0) (idxs.getD 2 0)) <<< 2) |||
  ((treeBit buf (feats.getD 3 0) (masks.getD 3 0) (idxs.getD 3 0)) <<< 3) |||
  ((treeBit buf (feats.getD 4 0) (masks.getD 4 0) (idxs.getD 4 0)) <<< 4)

/-- Tree-ensemble accumulation loop of part_001 and categorical_optimized.cpp
over the flattened split arrays: per tree, compute the general leaf index,
add `leafValues[index][0]`, then advance the split cursor by the tree depth
and the leaf cursor by `2^depth`. -/
def evalTreesGen (buf : List ℕ) :
    List ℕ → List ℕ → List ℕ → List ℕ → List ℚ → ℚ
  | [], _, _, _, _ => 0
  | d :: ds, idxs, feats, masks, leaves =>
      leaves.getD (traverseTree buf feats idxs masks d) 0 +
      evalTreesGen buf ds (idxs.drop d) (feats.drop d) (masks.drop d) (leaves.drop (2 ^ d))

/-- Tree-ensemble accumulation loop of fully_optimized.cpp: specialised
unrolled index computation for depths 6 and 5, the general loop otherwise. -/
def evalTreesFully (buf : List ℕ) :
    List ℕ → List ℕ → List ℕ → List ℕ → List ℚ → ℚ
  | [], _, _, _, _ => 0
  | d :: ds, idxs, feats, masks, leaves =>
      let index :=
        if d = 6 then unrolledIndex6 buf feats idxs masks
        else if d = 5 then unrolledIndex5 buf feats idxs masks
        else traverseTree buf feats idxs masks d
      leaves.getD index 0 +
      evalTreesFully buf ds (idxs.drop d) (feats.drop d) (masks.drop d) (leaves.drop (2 ^ d))

/-- Per-tree list of selected leaf values (`leafValues[index][0]`), walking
the flattened split arrays in model order. -/
def selectedLeafValues (buf : List ℕ) :
    List ℕ → List ℕ → List ℕ → List ℕ → List ℚ → List ℚ
  | [], _, _, _, _ => []
  | d :: ds, idxs, feats, masks, leaves =>
      leaves.getD (traverseTree buf feats idxs masks d) 0 ::
      selectedLeafValues buf ds (idxs.drop d) (feats.drop d) (masks.drop d) (leaves.drop (2 ^ d))

/-- Zero-padding of the written byte prefix up to the full
`BinaryFeatureCount`-byte buffer (the buffers are `memset` to zero before
binarization, so unwritten positions read as 0). -/
def padTo (n : ℕ) (l : List ℕ) : List ℕ := l ++ List.replicate (n - l.length) 0

/-- CTR materialisation and binarization tail shared (textually identical
scalar accumulation loops) by part_001, categorical_optimized.cpp and
fully_optimized.cpp: when the model declares CTRs, call `CalcCtrs` on the
first `BinaryFeatureCount` buffer bytes and the transposed hash vector, then
binarize each CTR value against its border list with the scalar
accumulator. -/
def ctrBytes (M : CatboostModel) (pre : List ℕ) (hashes : List ℤ) : List ℕ :=
  if 0 < M.UsedModelCtrsCount then
    let ctrs := M.CalcCtrs (padTo M.BinaryFeatureCount pre) hashes
    (List.range M.CtrFeatureBorders.length).map (fun i =>
      binarizeScalar (M.CtrFeatureBorders.getD i []) (ctrs.getD i 0))
  else []

/-- The transposed hash vector `{hash0, hash1, hash2}` computed identically
by part_001 (`transposedHashBuffer`), categorical_optimized.cpp and
fully_optimized.cpp from features 6, 7, 8. -/
def transposedHashes (features : List ℚ) : List ℤ :=
  [resolveHash cutHashes 5 (features.getD 6 0),
   resolveHash colorHashes 7 (features.getD 7 0),
   resolveHash clarityHashes 8 (features.getD 8 0)]

/-- Binarized feature vector produced by `catboostPredict` of
src/unnamed/part_001 (scalar loops throughout). -/
def part001Buf (M : CatboostModel) (features : List ℚ) : Option (List ℕ) := do
  let hashes := transposedHashes features
  let oh ← oneHotBytes oneHotOr M hashes
  let pre := binFloatsPart001 M.FloatFeatureBorders features ++ oh
  pure (pre ++ ctrBytes M pre hashes)

/-- The scalar scorer `catboostPredict` of src/unnamed/part_001. -/
def part001Predict (M : CatboostModel) (features : List ℚ) (featureCount : ℤ) : Option ℚ :=
  if featureCount ≠ 9 then some (-1) else
  (part001Buf M features).map (fun buf =>
    M.Scale * evalTreesGen buf M.TreeDepth M.TreeSplitIdxs M.TreeSplitFeatureIndex
      M.TreeSplitXorMask M.LeafValues + M.Biases.getD 0 0)

/-- Binarized feature vector produced by `catboostPredict` of
src/experiments/categorical_optimized.cpp (4-at-a-time numeric loop). -/
def catOptBuf (M : CatboostModel) (features : List ℚ) : Option (List ℕ) := do
  let hashes := transposedHashes features
  let oh ← oneHotBytes oneHotOr M hashes
  let pre := binFloatsCatOpt M.FloatFeatureBorders features ++ oh
  pure (pre ++ ctrBytes M pre hashes)

/-- The unrolled scorer `catboostPredict` of
src/experiments/categorical_optimized.cpp. -/
def catOptPredict (M : CatboostModel) (features : List ℚ) (featureCount : ℤ) : Option ℚ :=
  if featureCount ≠ 9 then some (-1) else
  (catOptBuf M features).map (fun buf =>
    M.Scale * evalTreesGen buf M.TreeDepth M.TreeSplitIdxs M.TreeSplitFeatureIndex
      M.TreeSplitXorMask M.LeafValues + M.Biases.getD 0 0)

/-- Binarized feature vector produced by `catboostPredict` of
src/experiments/fully_optimized.cpp (SIMD numeric loop, specialised one-hot). -/
def fullyBuf (M : CatboostModel) (features : List ℚ) : Option (List ℕ) := do
  let hashes := transposedHashes features
  let oh ← oneHotBytes oneHotFully M hashes
  let pre := binFloatsFully M.FloatFeatureBorders features ++ oh
  pure (pre ++ ctrBytes M pre hashes)

/-- The SIMD scorer `catboostPredict` of src/experiments/fully_optimized.cpp
(unrolled depth-6/depth-5 tree traversal). -/
def fullyOptPredict (M : CatboostModel) (features : List ℚ) (featureCount : ℤ) : Option ℚ :=
  if featureCount ≠ 9 then some (-1) else
  (fullyBuf M features).map (fun buf =>
    M.Scale * evalTreesFully buf M.TreeDepth M.TreeSplitIdxs M.TreeSplitFeatureIndex
      M.TreeSplitXorMask M.LeafValues + M.Biases.getD 0 0)

/-- Bounds-modelled read `l[i]` of a C string array indexed by a possibly
negative `int`: an index outside `[0, length)` is an out-of-bounds access
(undefined behaviour), embedded as `none`. -/
def idxStr (l : List String) (i : ℤ) : Option String :=
  if 0 ≤ i then l.get? i.toNat else none

/-- Modelled from the spec: `ApplyCatboostModel(floatFeatures, catFeatures)`
of models/baseline.cpp, which is not among the repository sources here.
Per spec §4.1-§4.4: hash each categorical string (the hash function itself is
the opaque parameter `hs`), binarize numeric features by counting borders
strictly below the value, binarize each one-hot descriptor to the 1-based
index of the first matching hash (0 if none), materialise CTRs through the
model's opaque `CalcCtrs`, binarize them the same way, then evaluate every
oblivious tree on the byte vector and return
`Scale * (sum of selected leaf values) + Biases[0]`. -/
def ApplyCatboostModel (M : CatboostModel) (hs : String → ℤ)
    (floatFeatures : List ℚ) (catFeatures : List String) : ℚ :=
  let hashes := catFeatures.map hs
  let numBytes := (List.range M.FloatFeatureBorders.length).filterMap (fun i =>
    let bs := M.FloatFeatureBorders.getD i []
    if bs.isEmpty then none
    else some (bs.countP (fun b => decide (b < floatFeatures.getD i 0))))
  let ohBytes := (List.range M.OneHotCatFeatureIndex.length).filterMap (fun i =>
    let hv := M.OneHotHashValues.getD i []
    if hv.isEmpty then none
    else
      let c := (packedIndex M.CatFeaturesIndex (M.OneHotCatFeatureIndex.getD i 0)).getD 0
      some (firstMatch hv (hashes.getD c 0)))
  let pre := numBytes ++ ohBytes
  let ctrB :=
    if 0 < M.UsedModelCtrsCount then
      let ctrs := M.CalcCtrs (padTo M.BinaryFeatureCount pre) hashes
      (List.range M.CtrFeatureBorders.length).map (fun i =>
        (M.CtrFeatureBorders.getD i []).countP (fun b => decide (b < ctrs.getD i 0)))
    else []
  let buf := pre ++ ctrB
  M.Scale * evalTreesGen buf M.TreeDepth M.TreeSplitIdxs M.TreeSplitFeatureIndex
    M.TreeSplitXorMask M.LeafValues + M.Biases.getD 0 0

/-- `CUT_MAPPING` of src/unnamed/part_002. -/
def CUT_MAPPING : List String := ["Fair", "Good", "Very Good", "Premium", "Ideal"]

/-- `COLOR_MAPPING` of src/unnamed/part_002. -/
def COLOR_MAPPING : List String := ["J", "I", "H", "G", "F", "E", "D"]

/-- `CLARITY_MAPPING` of src/unnamed/part_002. -/
def CLARITY_MAPPING : List String := ["I1", "SI2", "SI1", "VS2", "VS1", "VVS2", "VVS1", "IF"]

/-- Per-sample body of `catboostPredictAll` in src/unnamed/part_002: copy the
float features, map each categorical index through the position-dependent
string table (no range validation: an out-of-range index reads the mapping
array out of bounds, embedded as `none`), then apply the model. -/
def part002SampleScore (M : CatboostModel) (hs : String → ℤ)
    (sample : List ℚ) (numFloatFeatures numCatFeatures : ℕ) : Option ℚ := do
  let floatFeatures := (List.range numFloatFeatures).map (fun j => sample.getD j 0)
  let catFeatures ← (List.range numCatFeatures).mapM (fun j =>
    let catIdx := cint (sample.getD (numFloatFeatures + j) 0)
    match j with
    | 0 => idxStr CUT_MAPPING catIdx
    | 1 => idxStr COLOR_MAPPING catIdx
    | 2 => idxStr CLARITY_MAPPING catIdx
    | _ => some "")
  pure (ApplyCatboostModel M hs floatFeatures catFeatures)

/-- Sample loop of `catboostPredictAll` in src/unnamed/part_002: samples are
processed independently in input order, each reading the flat input at offset
`i * featuresPerSample`. -/
def part002Loop (M : CatboostModel) (hs : String → ℤ) (inputData : List ℚ)
    (numFloatFeatures numCatFeatures : ℕ) : ℕ → ℕ → Option (List ℚ)
  | _, 0 => some []
  | i, k + 1 => do
      let fps := numFloatFeatures + numCatFeatures
      let p ← part002SampleScore M hs ((inputData.drop (i * fps)).take fps)
        numFloatFeatures numCatFeatures
      let rest ← part002Loop M hs inputData numFloatFeatures numCatFeatures (i + 1) k
      pure (p :: rest)

/-- The batch entry point `catboostPredictAll` of src/unnamed/part_002. -/
def part002PredictAll (M : CatboostModel) (hs : String → ℤ) (inputData : List ℚ)
    (numSamples numFloatFeatures numCatFeatures : ℕ) : Option (List ℚ) :=
  part002Loop M hs inputData numFloatFeatures numCatFeatures 0 numSamples

/-- The single-record entry point `catboostPredict` of src/unnamed/part_002:
feature-count check, then fixed extraction of 6 floats and 3 mapped
categorical strings (again without range validation). -/
def part002Predict (M : CatboostModel) (hs : String → ℤ)
    (features : List ℚ) (featureCount : ℤ) : Option ℚ :=
  if featureCount ≠ 9 then some (-1) else do
    let floatFeatures := [features.getD 0 0, features.getD 1 0, features.getD 2 0,
      features.getD 3 0, features.getD 4 0, features.getD 5 0]
    let cut ← idxStr CUT_MAPPING (cint (features.getD 6 0))
    let color ← idxStr COLOR_MAPPING (cint (features.getD 7 0))
    let clarity ← idxStr CLARITY_MAPPING (cint (features.getD 8 0))
    pure (ApplyCatboostModel M hs floatFeatures [cut, color, clarity])

/-- `cutValues` of the wrapper in src/unnamed/part_003. -/
def part003CutValues : List String := ["Fair", "Good", "Very Good", "Premium", "Ideal"]

/-- `colorValues` of the wrapper in src/unnamed/part_003. -/
def part003ColorValues : List String := ["J", "I", "H", "G", "F", "E", "D"]

/-- `clarityValues` of the wrapper in src/unnamed/part_003. -/
def part003ClarityValues : List String :=
  ["I1", "SI2", "SI1", "VS2", "VS1", "VVS2", "VVS1", "IF"]

/-- The wrapper `catboostPredict` of src/unnamed/part_003 (lines 7-43): no
feature-count validation at all; numeric features are read from positions
0, 4, 5, 6, 7, 8 and categorical indices from positions 1, 2, 3 (metadata
order), each mapped through an unchecked string-table read. The
`featureCount` argument is never consulted. -/
def part003Predict (M : CatboostModel) (hs : String → ℤ)
    (features : List ℚ) (_featureCount : ℤ) : Option ℚ := do
  let floatFeatures := [features.getD 0 0, features.getD 4 0, features.getD 5 0,
    features.getD 6 0, features.getD 7 0, features.getD 8 0]
  let cut ← idxStr part003CutValues (cint (features.getD 1 0))
  let color ← idxStr part003ColorValues (cint (features.getD 2 0))
  let clarity ← idxStr part003ClarityValues (cint (features.getD 3 0))
  pure (ApplyCatboostModel M hs floatFeatures [cut, color, clarity])

/-- `cutCategories` of src/experiments/baseline_wrapper.cpp (hash-table order,
unlike the part_002/part_003 mapping order). -/
def wrapperCutCategories : List String := ["Ideal", "Premium", "Good", "Very Good", "Fair"]

/-- `colorCategories` of src/experiments/baseline_wrapper.cpp. -/
def wrapperColorCategories : List String := ["E", "I", "J", "H", "F", "G", "D"]

/-- `clarityCategories` of src/experiments/baseline_wrapper.cpp. -/
def wrapperClarityCategories : List String :=
  ["SI2", "SI1", "VS1", "VS2", "VVS2", "VVS1", "I1", "IF"]

/-- Bounds-checked category naming of baseline_wrapper.cpp: out-of-range
indices fall back to the string "Unknown". -/
def wrapperCategory (l : List String) (i : ℤ) : String :=
  if 0 ≤ i ∧ i < (l.length : ℤ) then l.getD i.toNat "" else "Unknown"

/-- The wrapper `catboostPredict` of src/experiments/baseline_wrapper.cpp:
feature-count check, bounds-checked string conversion with "Unknown"
fallback, then the baseline model application. -/
def baselineWrapperPredict (M : CatboostModel) (hs : String → ℤ)
    (features : List ℚ) (featureCount : ℤ) : Option ℚ :=
  if featureCount ≠ 9 then some (-1) else
  some (ApplyCatboostModel M hs
    [features.getD 0 0, features.getD 1 0, features.getD 2 0,
     features.getD 3 0, features.getD 4 0, features.getD 5 0]
    [wrapperCategory wrapperCutCategories (cint (features.getD 6 0)),
     wrapperCategory wrapperColorCategories (cint (features.getD 7 0)),
     wrapperCategory wrapperClarityCategories (cint (features.getD 8 0))])

/-- Concrete miniature model used to witness the theorems below: six numeric
slots of which only slot 0 is active (a single border at 1), no one-hot
features, no CTRs, and one depth-1 oblivious tree splitting on slot 0 at
threshold byte 1 with leaves `[10, 20]`, scale 1, bias 0 — the scenario of
spec §8. -/
def Mtiny : CatboostModel where
  FloatFeatureBorders := [[1], [], [], [], [], []]
  BinaryFeatureCount := 1
  CatFeaturesIndex := [1, 2, 3]
  OneHotCatFeatureIndex := []
  OneHotHashValues := []
  UsedModelCtrsCount := 0
  CalcCtrs := fun _ _ => []
  CtrFeatureBorders := []
  TreeDepth := [1]
  TreeSplitIdxs := [1]
  TreeSplitFeatureIndex := [0]
  TreeSplitXorMask := [0]
  LeafValues := [10, 20]
  Scale := 1
  Biases := [0]

/-- Opaque string-hash stand-in used with `Mtiny` (`Mtiny` has no one-hot
hash lists, so its value is never compared against anything). -/
def hsTiny : String → ℤ := fun _ => 0

/-- A valid 9-feature record: six zero numeric features and the three
categorical indices 0, 0, 0 (each in range). -/
def feats9 : List ℚ := [0, 0, 0, 0, 0, 0, 0, 0, 0]

/-- Specification-side count for numeric binarization: the number of borders
strictly below the raw value. -/
def countB (borders : List ℚ) (x : ℚ) : ℕ := borders.countP (fun b => decide (b < x))

/-- A 256-entry pairwise-distinct hash list (the integers 0..255), used to
exhibit the byte truncation of the one-hot OR accumulator on over-long hash
lists. -/
def hv256 : List ℤ := (List.range 256).map (fun n => (n : ℤ))

/-- A 256-entry border list (255 zeros followed by one border at 10), used to
exhibit the byte wrap-around of numeric binarization on over-long border
lists. -/
def wrapBorders : List ℚ := List.replicate 255 (0 : ℚ) ++ [10]

/-- The precondition of claim C10 on one sample: the three categorical
feature values, truncated to int, are valid indices into `CUT_MAPPING`,
`COLOR_MAPPING` and `CLARITY_MAPPING` respectively. -/
def validCats (s : List ℚ) : Prop :=
  (0 ≤ cint (s.getD 6 0) ∧ cint (s.getD 6 0) < 5) ∧
  (0 ≤ cint (s.getD 7 0) ∧ cint (s.getD 7 0) < 7) ∧
  (0 ≤ cint (s.getD 8 0) ∧ cint (s.getD 8 0) < 8)

instance (s : List ℚ) : Decidable (validCats s) :=
  inferInstanceAs (Decidable ((0 ≤ cint (s.getD 6 0) ∧ cint (s.getD 6 0) < 5) ∧
    (0 ≤ cint (s.getD 7 0) ∧ cint (s.getD 7 0) < 7) ∧
    (0 ≤ cint (s.getD 8 0) ∧ cint (s.getD 8 0) < 8)))

theorem foldl_addB (x : ℚ) (bs : List ℚ) :
    ∀ acc, acc < 256 → bs.foldl (addB x) acc = (acc + countB bs x) % 256 := by
  induction bs with
  | nil =>
    intro acc hacc
    simp [countB, Nat.mod_eq_of_lt hacc]
  | cons b bs ih =>
    intro acc hacc
    rw [List.foldl_cons]
    rw [ih (addB x acc b) (Nat.mod_lt _ (by norm_num))]
    by_cases hb : x > b
    · simp [addB, countB, List.countP_cons, hb]
      omega
    · simp [addB, countB, List.countP_cons, hb]

theorem binarizeScalar_eq_countB (bs : List ℚ) (x : ℚ) :
    binarizeScalar bs x = countB bs x % 256 := by
  simpa using foldl_addB x bs 0 (by norm_num)

theorem unroll4Go_eq_countB (x : ℚ) (bs : List ℚ) (acc : ℕ) (hacc : acc < 256) :
    unroll4Go x bs acc = (acc + countB bs x) % 256 := by
  induction bs, acc using unroll4Go.induct x with
  | case1 b0 b1 b2 b3 rest acc ih =>
    rw [unroll4Go]
    rw [ih (Nat.mod_lt _ (by norm_num))]
    by_cases h0 : x > b0 <;> by_cases h1 : x > b1 <;> by_cases h2 : x > b2 <;>
      by_cases h3 : x > b3 <;>
      simp [addB, countB, List.countP_cons, h0, h1, h2, h3] <;> omega
  | case2 rest acc h =>
    rw [unroll4Go.eq_def]
    split
    · exact ((by exact h _ _ _ _ _ rfl : False)).elim
    · exact foldl_addB x _ acc hacc

theorem countB_cons (b : ℚ) (bs : List ℚ) (x : ℚ) :
    countB (b :: bs) x = (if x > b then 1 else 0) + countB bs x := by
  by_cases h : b < x <;> simp [countB, List.countP_cons, h, gt_iff_lt, Nat.add_comm]

theorem countB_four (b0 b1 b2 b3 : ℚ) (bs : List ℚ) (x : ℚ) :
    countB (b0 :: b1 :: b2 :: b3 :: bs) x = pop4 x b0 b1 b2 b3 + countB bs x := by
  rw [countB_cons, countB_cons, countB_cons, countB_cons, pop4]
  ring

theorem simdGo_eq_countB (x : ℚ) (bs : List ℚ) (acc : ℕ) (hacc : acc < 256) :
    simdGo x bs acc = (acc + countB bs x) % 256 := by
  induction bs, acc using simdGo.induct x with
  | case1 b0 b1 b2 b3 b4 b5 b6 b7 rest acc ih =>
    rw [simdGo]
    rw [ih (Nat.mod_lt _ (by norm_num))]
    rw [countB_four, countB_four]
    omega
  | case2 b0 b1 b2 b3 rest acc h =>
    rw [simdGo.eq_def]
    split
    · exfalso
      rename_i heq
      simp only [List.cons.injEq] at heq
      exact h _ _ _ _ _ heq.2.2.2.2
    · rename_i heq
      simp only [List.cons.injEq] at heq
      obtain ⟨e0, e1, e2, e3, e4⟩ := heq
      subst e0; subst e1; subst e2; subst e3; subst e4
      rw [foldl_addB x _ _ (Nat.mod_lt _ (by norm_num)), countB_four]
      omega
    · rename_i hn8 hn4
      exact ((hn4 _ _ _ _ _ rfl : False)).elim
  | case3 rest acc h8 h4 =>
    rw [simdGo.eq_def]
    split
    · exact ((h8 _ _ _ _ _ _ _ _ _ rfl : False)).elim
    · exact ((h4 _ _ _ _ _ rfl : False)).elim
    · exact foldl_addB x _ acc hacc

theorem binarizeUnroll4_eq_countB (bs : List ℚ) (x : ℚ) :
    binarizeUnroll4 bs x = countB bs x % 256 := by
  simpa using unroll4Go_eq_countB x bs 0 (by norm_num)

theorem binarizeSimd_eq_countB (bs : List ℚ) (x : ℚ) :
    binarizeSimd bs x = countB bs x % 256 := by
  simpa using simdGo_eq_countB x bs 0 (by norm_num)

theorem oneHotOrGo_no_match (h : ℤ) (l : List ℤ) :
    ∀ idx res, res < 256 → h ∉ l → oneHotOrGo h l idx res = res := by
  induction l with
  | nil => intro idx res _ _; rfl
  | cons v rest ih =>
    intro idx res hres hmem
    rw [oneHotOrGo]
    rw [if_neg (fun (hv : h = v) => hmem (List.mem_cons.mpr (Or.inl hv)))]
    rw [Nat.or_zero, Nat.mod_eq_of_lt hres]
    exact ih (idx + 1) res hres (fun hm => hmem (List.mem_cons_of_mem v hm))

theorem oneHotOrGo_firstMatch (h : ℤ) (l : List ℤ) :
    ∀ idx, l.Nodup → idx + l.length ≤ 255 →
      oneHotOrGo h l idx 0 =
        (match l.findIdx? (fun v => v = h) with
         | some k => idx + k + 1
         | none => 0) := by
  induction l with
  | nil => intro idx _ _; rfl
  | cons v rest ih =>
    intro idx hnd hlen
    rw [oneHotOrGo]
    by_cases hv : h = v
    · rw [if_pos hv]
      rw [Nat.zero_or, Nat.mod_eq_of_lt (by simp at hlen; omega)]
      have hnm : h ∉ rest := fun hm => (List.nodup_cons.mp hnd).1 (hv ▸ hm)
      rw [oneHotOrGo_no_match h rest (idx + 1) (idx + 1) (by simp at hlen; omega) hnm]
      simp [List.findIdx?_cons, hv.symm]
    · rw [if_neg hv]
      rw [Nat.or_zero]
      rw [Nat.zero_mod]
      rw [ih (idx + 1) (List.nodup_cons.mp hnd).2 (by simp at hlen; omega)]
      have : ¬ (v = h) := fun he => hv he.symm
      simp only [List.findIdx?_cons, decide_eq_false this, if_false, List.findIdx?_succ]
      cases rest.findIdx? (fun v => v = h) with
      | none => simp
      | some k => simp; omega

theorem oneHotOr_eq_firstMatch (hv : List ℤ) (h : ℤ)
    (hnd : hv.Nodup) (hlen : hv.length ≤ 255) :
    oneHotOr hv h = firstMatch hv h := by
  rw [oneHotOr, firstMatch, oneHotOrGo_firstMatch h hv 0 hnd (by omega)]
  cases hv.findIdx? (fun v => v = h) with
  | none => rfl
  | some k => simp

theorem oneHotOr_no_match (hv : List ℤ) (h : ℤ) (hmem : h ∉ hv) :
    oneHotOr hv h = 0 :=
  oneHotOrGo_no_match h hv 0 0 (by norm_num) hmem

theorem oneHotFully_eq_oneHotOr (hv : List ℤ) (h : ℤ) (hnd : hv.Nodup) :
    oneHotFully hv h = oneHotOr hv h := by
  match hv with
  | [] => rfl
  | [v0] => rfl
  | [v0, v1] =>
    have h01 : v0 ≠ v1 := by simp [List.nodup_cons] at hnd; tauto
    by_cases h0 : h = v0
    · have h1 : ¬ h = v1 := fun h1 => h01 ((h0.symm.trans h1))
      simp [oneHotFully, oneHotOr, oneHotOrGo, h0, h1, h01, Ne.symm h01]
    · by_cases h1 : h = v1
      · simp [oneHotFully, oneHotOr, oneHotOrGo, h0, h1, h01, Ne.symm h01]
      · simp [oneHotFully, oneHotOr, oneHotOrGo, h0, h1]
  | [v0, v1, v2] =>
    have hd : v0 ≠ v1 ∧ v0 ≠ v2 ∧ v1 ≠ v2 := by
      simp [List.nodup_cons] at hnd; tauto
    by_cases h0 : h = v0
    · have h1 : ¬ h = v1 := fun h1 => hd.1 (h0.symm.trans h1)
      have h2 : ¬ h = v2 := fun h2 => hd.2.1 (h0.symm.trans h2)
      simp [oneHotFully, oneHotOr, oneHotOrGo, h0, h1, h2, hd.1, hd.2.1, hd.2.2,
        Ne.symm hd.1, Ne.symm hd.2.1, Ne.symm hd.2.2]
    · by_cases h1 : h = v1
      · have h2 : ¬ h = v2 := fun h2 => hd.2.2 (h1.symm.trans h2)
        simp [oneHotFully, oneHotOr, oneHotOrGo, h0, h1, h2, hd.1, hd.2.1, hd.2.2,
          Ne.symm hd.1, Ne.symm hd.2.1, Ne.symm hd.2.2]
      · by_cases h2 : h = v2
        · simp [oneHotFully, oneHotOr, oneHotOrGo, h0, h1, h2, hd.1, hd.2.1, hd.2.2,
            Ne.symm hd.1, Ne.symm hd.2.1, Ne.symm hd.2.2]
        · simp [oneHotFully, oneHotOr, oneHotOrGo, h0, h1, h2]
  | v0 :: v1 :: v2 :: v3 :: rest => rfl

theorem oneHotFully_no_match (hv : List ℤ) (h : ℤ) (hmem : h ∉ hv) :
    oneHotFully hv h = 0 := by
  match hv with
  | [v0, v1] =>
    have h0 : ¬ h = v0 := fun he => hmem (by simp [he])
    have h1 : ¬ h = v1 := fun he => hmem (by simp [he])
    simp [oneHotFully, h0, h1]
  | [v0, v1, v2] =>
    have h0 : ¬ h = v0 := fun he => hmem (by simp [he])
    have h1 : ¬ h = v1 := fun he => hmem (by simp [he])
    have h2 : ¬ h = v2 := fun he => hmem (by simp [he])
    simp [oneHotFully, h0, h1, h2]
  | [] => rfl
  | [v0] => simp [oneHotFully]; exact oneHotOr_no_match _ _ hmem
  | v0 :: v1 :: v2 :: v3 :: rest => simp [oneHotFully]; exact oneHotOr_no_match _ _ hmem

theorem traverseTree_zero (buf : List ℕ) (feats idxs masks : List ℕ) :
    traverseTree buf feats idxs masks 0 = 0 := rfl

theorem traverseTree_succ (buf : List ℕ) (feats idxs masks : List ℕ) (d : ℕ) :
    traverseTree buf feats idxs masks (d + 1) =
      traverseTree buf feats idxs masks d |||
        (treeBit buf (feats.getD d 0) (masks.getD d 0) (idxs.getD d 0)) <<< d := by
  rw [traverseTree, traverseTree, List.range_succ, List.foldl_append]
  rfl

theorem treeBit_le_one (buf : List ℕ) (feat mask thr : ℕ) :
    treeBit buf feat mask thr ≤ 1 := by
  rw [treeBit]; split <;> omega

theorem traverseTree_lt_two_pow (buf : List ℕ) (feats idxs masks : List ℕ) :
    ∀ depth, traverseTree buf feats idxs masks depth < 2 ^ depth := by
  intro depth
  induction depth with
  | zero => rw [traverseTree_zero]; norm_num
  | succ d ih =>
    rw [traverseTree_succ]
    apply Nat.or_lt_two_pow
    · exact lt_of_lt_of_le ih (Nat.pow_le_pow_right (by norm_num) (by omega))
    · have hb := treeBit_le_one buf (feats.getD d 0) (masks.getD d 0) (idxs.getD d 0)
      rw [Nat.shiftLeft_eq]
      calc treeBit buf (feats.getD d 0) (masks.getD d 0) (idxs.getD d 0) * 2 ^ d
          ≤ 1 * 2 ^ d := Nat.mul_le_mul_right _ hb
        _ < 2 ^ (d + 1) := by rw [Nat.one_mul, Nat.pow_succ]; omega

theorem unrolledIndex6_eq (buf : List ℕ) (feats idxs masks : List ℕ) :
    unrolledIndex6 buf feats idxs masks = traverseTree buf feats idxs masks 6 := by
  have h6 : List.range 6 = [0, 1, 2, 3, 4, 5] := rfl
  rw [traverseTree, h6, unrolledIndex6]
  simp [List.foldl, Nat.shiftLeft_zero, Nat.zero_or]

theorem unrolledIndex5_eq (buf : List ℕ) (feats idxs masks : List ℕ) :
    unrolledIndex5 buf feats idxs masks = traverseTree buf feats idxs masks 5 := by
  have h5 : List.range 5 = [0, 1, 2, 3, 4] := rfl
  rw [traverseTree, h5, unrolledIndex5]
  simp [List.foldl, Nat.shiftLeft_zero, Nat.zero_or]

theorem evalTreesFully_eq_gen (buf : List ℕ) (ds : List ℕ) :
    ∀ idxs feats masks leaves,
      evalTreesFully buf ds idxs feats masks leaves =
        evalTreesGen buf ds idxs feats masks leaves := by
  induction ds with
  | nil => intro idxs feats masks leaves; rfl
  | cons d ds ih =>
    intro idxs feats masks leaves
    rw [evalTreesFully, evalTreesGen, ih]
    by_cases h6 : d = 6
    · subst h6; rw [if_pos rfl, unrolledIndex6_eq]
    · by_cases h5 : d = 5
      · subst h5; rw [if_neg (by norm_num), if_pos rfl, unrolledIndex5_eq]
      · rw [if_neg h6, if_neg h5]

theorem evalTreesGen_eq_sum (buf : List ℕ) (ds : List ℕ) :
    ∀ idxs feats masks leaves,
      evalTreesGen buf ds idxs feats masks leaves =
        (selectedLeafValues buf ds idxs feats masks leaves).sum := by
  induction ds with
  | nil => intro idxs feats masks leaves; rfl
  | cons d ds ih =>
    intro idxs feats masks leaves
    rw [evalTreesGen, selectedLeafValues, List.sum_cons, ih]

theorem binarizeUnroll4_eq_scalar (bs : List ℚ) (x : ℚ) :
    binarizeUnroll4 bs x = binarizeScalar bs x := by
  rw [binarizeUnroll4_eq_countB, binarizeScalar_eq_countB]

theorem binarizeSimd_eq_scalar (bs : List ℚ) (x : ℚ) :
    binarizeSimd bs x = binarizeScalar bs x := by
  rw [binarizeSimd_eq_countB, binarizeScalar_eq_countB]

theorem binFloatsCatOpt_eq_part001 (bl : List (List ℚ)) (xs : List ℚ)
    (hlen : bl.length = 6) : binFloatsCatOpt bl xs = binFloatsPart001 bl xs := by
  rw [binFloatsCatOpt, binFloatsPart001, hlen]
  apply List.filterMap_congr
  intro i _
  simp only [binarizeUnroll4_eq_scalar]

theorem binFloatsFully_eq_catOpt (bl : List (List ℚ)) (xs : List ℚ) :
    binFloatsFully bl xs = binFloatsCatOpt bl xs := by
  rw [binFloatsFully, binFloatsCatOpt]
  apply List.filterMap_congr
  intro i _
  simp only [binarizeSimd_eq_scalar, binarizeUnroll4_eq_scalar]

theorem oneHotBytesGo_congr (M : CatboostModel) (hashes : List ℤ)
    (hnd : ∀ hv ∈ M.OneHotHashValues, hv.Nodup) (l : List ℕ) :
    oneHotBytesGo oneHotFully M hashes l = oneHotBytesGo oneHotOr M hashes l := by
  induction l with
  | nil => rfl
  | cons i rest ih =>
    rw [oneHotBytesGo, oneHotBytesGo, ih]
    cases packedIndex M.CatFeaturesIndex (M.OneHotCatFeatureIndex.getD i 0) with
    | none => rfl
    | some c =>
      dsimp only
      cases hashes.get? c with
      | none => rfl
      | some h =>
        dsimp only
        cases oneHotBytesGo oneHotOr M hashes rest with
        | none => rfl
        | some tail =>
          dsimp only
          by_cases he : (M.OneHotHashValues.getD i []).isEmpty
          · simp only [he, if_true]
          · have hm : M.OneHotHashValues.getD i [] ∈ M.OneHotHashValues := by
              by_cases hi : i < M.OneHotHashValues.length
              · rw [List.getD_eq_getElem?_getD, List.getElem?_eq_getElem hi]
                exact List.getElem_mem hi
              · exfalso
                apply he
                rw [List.getD_eq_getElem?_getD, List.getElem?_eq_none (by omega)]
                rfl
            simp only [he, if_false]
            rw [oneHotFully_eq_oneHotOr _ _ (hnd _ hm)]

theorem catOptBuf_eq_part001 (M : CatboostModel) (features : List ℚ)
    (hfb : M.FloatFeatureBorders.length = 6) :
    catOptBuf M features = part001Buf M features := by
  rw [catOptBuf, part001Buf]
  simp only [binFloatsCatOpt_eq_part001 M.FloatFeatureBorders features hfb]

theorem fullyBuf_eq_catOpt (M : CatboostModel) (features : List ℚ)
    (hnd : ∀ hv ∈ M.OneHotHashValues, hv.Nodup) :
    fullyBuf M features = catOptBuf M features := by
  rw [fullyBuf, catOptBuf, oneHotBytes, oneHotBytes, oneHotBytesGo_congr _ _ hnd]
  simp only [binFloatsFully_eq_catOpt]

theorem catOptPredict_eq_part001 (M : CatboostModel) (features : List ℚ) (c : ℤ)
    (hfb : M.FloatFeatureBorders.length = 6) :
    catOptPredict M features c = part001Predict M features c := by
  rw [catOptPredict, part001Predict, catOptBuf_eq_part001 M features hfb]

theorem fullyOptPredict_eq_catOpt (M : CatboostModel) (features : List ℚ) (c : ℤ)
    (hnd : ∀ hv ∈ M.OneHotHashValues, hv.Nodup) :
    fullyOptPredict M features c = catOptPredict M features c := by
  rw [fullyOptPredict, catOptPredict, fullyBuf_eq_catOpt M features hnd]
  by_cases hc : c ≠ 9
  · rw [if_pos hc, if_pos hc]
  · rw [if_neg hc, if_neg hc]
    congr 1
    funext buf
    rw [evalTreesFully_eq_gen]

theorem part002Sample_eq_single (M : CatboostModel) (hs : String → ℤ) (s : List ℚ) :
    part002SampleScore M hs s 6 3 = part002Predict M hs s 9 := by
  rw [part002SampleScore, part002Predict, if_neg (fun hx => hx rfl)]
  have h3 : List.range 3 = [0, 1, 2] := rfl
  have h6 : List.range 6 = [0, 1, 2, 3, 4, 5] := rfl
  rw [h3, h6]
  simp only [List.mapM, List.mapM.loop, List.getD_eq_getElem?_getD]
  cases h0 : idxStr CUT_MAPPING (cint (s[6]?.getD 0)) with
  | none => simp [h0]
  | some cut =>
    cases h1 : idxStr COLOR_MAPPING (cint (s[7]?.getD 0)) with
    | none => simp [h0, h1]
    | some color =>
      cases h2 : idxStr CLARITY_MAPPING (cint (s[8]?.getD 0)) with
      | none => simp [h0, h1, h2]
      | some clarity => simp [h0, h1, h2]

theorem part002Loop_eq_mapM (M : CatboostModel) (hs : String → ℤ) (data : List ℚ) :
    ∀ (k i : ℕ), part002Loop M hs data 6 3 i k =
      (List.range' i k).mapM (fun t =>
        part002Predict M hs ((data.drop (t * 9)).take 9) 9) := by
  intro k
  induction k with
  | zero => intro i; rfl
  | succ k ih =>
    intro i
    rw [part002Loop, List.range'_succ, List.mapM_cons]
    simp only [part002Sample_eq_single, ih]

theorem idxStr_exists_some (l : List String) (i : ℤ) (h0 : 0 ≤ i)
    (h1 : i < (l.length : ℤ)) : ∃ v, idxStr l i = some v := by
  rw [idxStr, if_pos h0]
  exact ⟨_, List.get?_eq_get (by omega)⟩

theorem part002Sample_isSome (M : CatboostModel) (hs : String → ℤ) (s : List ℚ)
    (hv : validCats s) : (part002SampleScore M hs s 6 3).isSome := by
  obtain ⟨c0, h0⟩ := idxStr_exists_some CUT_MAPPING _ hv.1.1 (by exact_mod_cast hv.1.2)
  obtain ⟨c1, h1⟩ := idxStr_exists_some COLOR_MAPPING _ hv.2.1.1 (by exact_mod_cast hv.2.1.2)
  obtain ⟨c2, h2⟩ := idxStr_exists_some CLARITY_MAPPING _ hv.2.2.1 (by exact_mod_cast hv.2.2.2)
  rw [part002SampleScore]
  have h3 : List.range 3 = [0, 1, 2] := rfl
  rw [h3]
  simp only [List.mapM, List.mapM.loop, List.getD_eq_getElem?_getD] at *
  simp [h0, h1, h2]

theorem part002Loop_isSome (M : CatboostModel) (hs : String → ℤ) (data : List ℚ) :
    ∀ (k i : ℕ), (∀ j, j < k → validCats ((data.drop ((i + j) * 9)).take 9)) →
      (part002Loop M hs data 6 3 i k).isSome := by
  intro k
  induction k with
  | zero => intro i _; rfl
  | succ k ih =>
    intro i hval
    rw [part002Loop]
    have hs0 := part002Sample_isSome M hs ((data.drop (i * (6 + 3))).take (6 + 3))
      (by have := hval 0 (by omega); simpa using this)
    obtain ⟨p, hp⟩ := Option.isSome_iff_exists.mp hs0
    have hrest := ih (i + 1) (fun j hj => by
      have := hval (j + 1) (by omega)
      have harith : i + 1 + j = i + (j + 1) := by omega
      rw [harith]
      exact this)
    obtain ⟨rest, hrt⟩ := Option.isSome_iff_exists.mp hrest
    rw [hp, hrt]
    rfl

/-- C1: For every input record of exactly 9 features whose three categorical
values, truncated to int, are valid indices (cut in `[0,5)`, color in
`[0,7)`, clarity in `[0,8)`), the three independently written scorers
`catboostPredict` of part_001 (scalar), categorical_optimized.cpp (unrolled)
and fully_optimized.cpp (SIMD) return scores that agree within an absolute
tolerance of 1e-4 — here proved exactly equal, for every model whose six
float-feature border slots and duplicate-free one-hot hash lists satisfy the
model invariants of spec §3. -/
theorem c1_scorers_agree (M : CatboostModel) (features : List ℚ)
    (_hlen : features.length = 9)
    (_hcut : 0 ≤ cint (features.getD 6 0) ∧ cint (features.getD 6 0) < 5)
    (_hcolor : 0 ≤ cint (features.getD 7 0) ∧ cint (features.getD 7 0) < 7)
    (_hclarity : 0 ≤ cint (features.getD 8 0) ∧ cint (features.getD 8 0) < 8)
    (hfb : M.FloatFeatureBorders.length = 6)
    (hnd : ∀ hv ∈ M.OneHotHashValues, hv.Nodup) :
    part001Predict M features 9 = catOptPredict M features 9 ∧
    catOptPredict M features 9 = fullyOptPredict M features 9 ∧
    (∀ s t : ℚ, part001Predict M features 9 = some s →
      fullyOptPredict M features 9 = some t → |s - t| ≤ 1 / 10000) := by
  refine ⟨(catOptPredict_eq_part001 M features 9 hfb).symm,
    (fullyOptPredict_eq_catOpt M features 9 hnd).symm, ?_⟩
  intro s t hsome htome
  have hpf : fullyOptPredict M features 9 = part001Predict M features 9 :=
    (fullyOptPredict_eq_catOpt M features 9 hnd).trans
      (catOptPredict_eq_part001 M features 9 hfb)
  rw [hpf, hsome] at htome
  obtain rfl := Option.some.inj htome
  simp only [sub_self, abs_zero]
  norm_num

/-- C1 witness: the three scorers evaluated on a concrete valid record of the
concrete miniature model. -/
theorem c1_scorers_agree_witness :
    part001Predict Mtiny feats9 9 = catOptPredict Mtiny feats9 9 ∧
    catOptPredict Mtiny feats9 9 = fullyOptPredict Mtiny feats9 9 ∧
    (∀ s t : ℚ, part001Predict Mtiny feats9 9 = some s →
      fullyOptPredict Mtiny feats9 9 = some t → |s - t| ≤ 1 / 10000) :=
  c1_scorers_agree Mtiny feats9 (by decide) (by decide) (by decide) (by decide)
    (by decide) (by intro hv h; exact absurd h (List.not_mem_nil hv))

/-- C2: tree evaluation builds the leaf index by iterating the levels
`d = 0 .. depth-1` and ORing in the decision bit
`(B[featureSlot_d] XOR xorMask_d) >= thresholdByte_d` shifted by `d`
(unsigned byte comparison, `>=` inclusive of the threshold), producing a
`depth`-bit integer; the fully unrolled depth-6 and depth-5 paths of
fully_optimized.cpp compute the same index as the general `traverseTree`
loop for every binarized byte vector, and each tree adds
`leafValues[index][0]` to the running total. -/
theorem c2_tree_index (buf : List ℕ) (feats idxs masks : List ℕ) :
    traverseTree buf feats idxs masks 0 = 0 ∧
    (∀ d : ℕ, traverseTree buf feats idxs masks (d + 1) =
      traverseTree buf feats idxs masks d |||
        (treeBit buf (feats.getD d 0) (masks.getD d 0) (idxs.getD d 0)) <<< d) ∧
    (∀ depth : ℕ, traverseTree buf feats idxs masks depth < 2 ^ depth) ∧
    unrolledIndex6 buf feats idxs masks = traverseTree buf feats idxs masks 6 ∧
    unrolledIndex5 buf feats idxs masks = traverseTree buf feats idxs masks 5 ∧
    (∀ (d : ℕ) (ds : List ℕ) (leaves : List ℚ),
      evalTreesFully buf (d :: ds) idxs feats masks leaves =
        leaves.getD (traverseTree buf feats idxs masks d) 0 +
          evalTreesFully buf ds (idxs.drop d) (feats.drop d) (masks.drop d)
            (leaves.drop (2 ^ d))) := by
  refine ⟨rfl, traverseTree_succ buf feats idxs masks,
    traverseTree_lt_two_pow buf feats idxs masks,
    unrolledIndex6_eq buf feats idxs masks, unrolledIndex5_eq buf feats idxs masks, ?_⟩
  intro d ds leaves
  rw [evalTreesFully_eq_gen, evalTreesGen, evalTreesFully_eq_gen]

/-- C3 (amended): for border lists of at most 255 entries — the bound the
spec itself states ("≤255 given realistic models") — the byte written for a
numeric slot equals the number of borders strictly below the raw value, in
both the scalar accumulation loop of part_001 and the SIMD bitmask/popcount
path of fully_optimized.cpp. -/
theorem c3_binarize_count (borders : List ℚ) (x : ℚ)
    (_hne : borders ≠ []) (hlen : borders.length ≤ 255) :
    binarizeScalar borders x = countB borders x ∧
    binarizeSimd borders x = countB borders x := by
  have hle : countB borders x ≤ borders.length := List.countP_le_length _
  have hlt : countB borders x < 256 := lt_of_le_of_lt (le_trans hle hlen) (by norm_num)
  rw [binarizeScalar_eq_countB, binarizeSimd_eq_countB, Nat.mod_eq_of_lt hlt]
  exact ⟨rfl, rfl⟩

/-- C3 witness at a concrete border list and value. -/
theorem c3_binarize_count_witness :
    binarizeScalar [1, 2, 3, 4, 5] 3 = countB [1, 2, 3, 4, 5] 3 ∧
    binarizeSimd [1, 2, 3, 4, 5] 3 = countB [1, 2, 3, 4, 5] 3 :=
  c3_binarize_count [1, 2, 3, 4, 5] 3 (by decide) (by decide)

set_option maxRecDepth 4000 in
/-- C3 counterexample to the claim as stated ("for every border-list
length"): with 256 borders strictly below the value the `unsigned char`
accumulator wraps mod 256, so both paths write byte 0 while the count of
borders below the value is 256. -/
theorem c3_counterexample :
    (List.replicate 256 (0 : ℚ) ≠ [] ∧ countB (List.replicate 256 (0 : ℚ)) 1 = 256) ∧
    binarizeScalar (List.replicate 256 (0 : ℚ)) 1 = 0 ∧
    binarizeSimd (List.replicate 256 (0 : ℚ)) 1 = 0 := by decide

/-- C4 (amended): for every one-hot feature whose hash list has
pairwise-distinct entries and at most 255 of them (every hash list in this
repository has at most 8), and for every slot hash, the byte produced by
one-hot binarization is the 1-based index of the first entry equal to the
hash, or 0 if none matches — both for the OR-accumulating loop of
categorical_optimized.cpp / part_001 and for the arithmetic-sum
specializations of fully_optimized.cpp. -/
theorem c4_onehot_first_match (hv : List ℤ) (h : ℤ)
    (hnd : hv.Nodup) (hlen : hv.length ≤ 255) :
    oneHotOr hv h = firstMatch hv h ∧ oneHotFully hv h = firstMatch hv h :=
  ⟨oneHotOr_eq_firstMatch hv h hnd hlen,
   (oneHotFully_eq_oneHotOr hv h hnd).trans (oneHotOr_eq_firstMatch hv h hnd hlen)⟩

/-- C4 witness: the clarity hash table (8 pairwise-distinct entries) and its
last entry as the slot hash. -/
theorem c4_onehot_first_match_witness :
    oneHotOr clarityHashes (-117150168) = firstMatch clarityHashes (-117150168) ∧
    oneHotFully clarityHashes (-117150168) = firstMatch clarityHashes (-117150168) :=
  c4_onehot_first_match clarityHashes (-117150168) (by decide) (by decide)

set_option maxRecDepth 4000 in
/-- C4 counterexample to the claim as stated (no bound on the hash-list
length): on the pairwise-distinct 256-entry list `hv256`, a match at the
last position makes the `unsigned char` OR accumulator wrap
(`256 % 256 = 0`), so the byte is 0 while the 1-based first-match index is
256. -/
theorem c4_counterexample :
    hv256.Nodup ∧ oneHotOr hv256 255 = 0 ∧ oneHotFully hv256 255 = 0 ∧
    firstMatch hv256 255 = 256 := by decide

/-- C5: for every record passing the feature-count check (and whose one-hot
packed-index lookups succeed, yielding the binarized buffer), the returned
score equals `Scale * S + Biases[0]`, where `S` is the sum of the selected
leaf values `leafValues[index][0]` of every tree taken in model order, with
no other transform applied — for both categorical_optimized.cpp and
fully_optimized.cpp.  (The C sources accumulate `S` in a `double` running
total and cast the final affine result to `float`; this embedding's
arithmetic is exact.) -/
theorem c5_score_affine (M : CatboostModel) (features : List ℚ) :
    (∀ buf, catOptBuf M features = some buf →
      catOptPredict M features 9 = some (M.Scale *
        (selectedLeafValues buf M.TreeDepth M.TreeSplitIdxs M.TreeSplitFeatureIndex
          M.TreeSplitXorMask M.LeafValues).sum + M.Biases.getD 0 0)) ∧
    (∀ buf, fullyBuf M features = some buf →
      fullyOptPredict M features 9 = some (M.Scale *
        (selectedLeafValues buf M.TreeDepth M.TreeSplitIdxs M.TreeSplitFeatureIndex
          M.TreeSplitXorMask M.LeafValues).sum + M.Biases.getD 0 0)) := by
  constructor
  · intro buf hb
    rw [catOptPredict, if_neg (fun hx => hx rfl), hb, Option.map_some']
    rw [evalTreesGen_eq_sum]
  · intro buf hb
    rw [fullyOptPredict, if_neg (fun hx => hx rfl), hb, Option.map_some']
    rw [evalTreesFully_eq_gen, evalTreesGen_eq_sum]

/-- C5 witness: both optimized scorers on the miniature model and a concrete
record whose binarized buffer is the single byte 0. -/
theorem c5_score_affine_witness :
    catOptPredict Mtiny feats9 9 = some (Mtiny.Scale *
      (selectedLeafValues [0] Mtiny.TreeDepth Mtiny.TreeSplitIdxs
        Mtiny.TreeSplitFeatureIndex Mtiny.TreeSplitXorMask Mtiny.LeafValues).sum +
      Mtiny.Biases.getD 0 0) ∧
    fullyOptPredict Mtiny feats9 9 = some (Mtiny.Scale *
      (selectedLeafValues [0] Mtiny.TreeDepth Mtiny.TreeSplitIdxs
        Mtiny.TreeSplitFeatureIndex Mtiny.TreeSplitXorMask Mtiny.LeafValues).sum +
      Mtiny.Biases.getD 0 0) :=
  ⟨(c5_score_affine Mtiny feats9).1 [0] (by decide),
   (c5_score_affine Mtiny feats9).2 [0] (by decide)⟩

/-- C6 (amended): every single-record scoring entry point that performs a
feature-count check — part_001, categorical_optimized.cpp,
fully_optimized.cpp, baseline_wrapper.cpp, and the single-record
`catboostPredict` of part_002 — returns the sentinel -1.0 whenever
`featureCount` differs from 9; the wrapper of part_003 (lines 7-43),
contrary to the claim, performs no feature-count validation at all and
ignores its `featureCount` argument entirely. -/
theorem c6_feature_count_sentinel (M : CatboostModel) (hs : String → ℤ)
    (features : List ℚ) (c : ℤ) (hc : c ≠ 9) :
    part001Predict M features c = some (-1) ∧
    catOptPredict M features c = some (-1) ∧
    fullyOptPredict M features c = some (-1) ∧
    baselineWrapperPredict M hs features c = some (-1) ∧
    part002Predict M hs features c = some (-1) ∧
    part003Predict M hs features c = part003Predict M hs features 9 := by
  refine ⟨?_, ?_, ?_, ?_, ?_, rfl⟩
  · rw [part001Predict, if_pos hc]
  · rw [catOptPredict, if_pos hc]
  · rw [fullyOptPredict, if_pos hc]
  · rw [baselineWrapperPredict, if_pos hc]
  · rw [part002Predict, if_pos hc]

/-- C6 witness at `featureCount = 8`. -/
theorem c6_feature_count_sentinel_witness :
    part001Predict Mtiny feats9 8 = some (-1) ∧
    catOptPredict Mtiny feats9 8 = some (-1) ∧
    fullyOptPredict Mtiny feats9 8 = some (-1) ∧
    baselineWrapperPredict Mtiny hsTiny feats9 8 = some (-1) ∧
    part002Predict Mtiny hsTiny feats9 8 = some (-1) ∧
    part003Predict Mtiny hsTiny feats9 8 = part003Predict Mtiny hsTiny feats9 9 :=
  c6_feature_count_sentinel Mtiny hsTiny feats9 8 (by decide)

/-- C6 counterexample to the claim as stated: the wrapper of part_003, called
with `featureCount = 8` on a record the miniature model scores as 10,
returns that model score (10, not the sentinel -1.0), because it never
checks the feature count. -/
theorem c6_counterexample :
    part003Predict Mtiny hsTiny feats9 8 = some 10 ∧ (10 : ℚ) ≠ -1 := by
  constructor
  · simp +decide [part003Predict, ApplyCatboostModel, Mtiny, hsTiny, feats9, idxStr, cint,
      firstMatch, packedIndex, padTo, evalTreesGen, traverseTree, treeBit, getByte,
      part003CutValues, part003ColorValues, part003ClarityValues, List.range_succ]
  · norm_num

/-- C7 (amended): in the hash-lookup scorers (part_001,
categorical_optimized.cpp, fully_optimized.cpp and the SIMD variant in
part_003), an out-of-range categorical index (negative or at least the
slot's category count) is mapped to the sentinel hash 0x7fffffff, and a
sentinel that equals no entry of a one-hot hash list makes every one-hot
byte that depends on the slot equal 0 — in both the OR loop and the
specialized sum paths.  The string-mapping entry points of part_002 (batch
and single-record), contrary to the claim, perform no range validation and
index their mapping arrays out of bounds instead (see the
counterexample). -/
theorem c7_sentinel_fails_closed (table : List ℤ) (n : ℤ) (q : ℚ) (hv : List ℤ)
    (hout : ¬ (0 ≤ cint q ∧ cint q < n)) (hns : sentinelHash ∉ hv) :
    resolveHash table n q = sentinelHash ∧
    oneHotOr hv sentinelHash = 0 ∧ oneHotFully hv sentinelHash = 0 := by
  refine ⟨?_, oneHotOr_no_match hv _ hns, oneHotFully_no_match hv _ hns⟩
  rw [resolveHash]
  exact if_neg hout

/-- C7 witness: cut index 7 is out of range `[0,5)` and yields the sentinel,
which matches nothing in the cut hash table, so the one-hot byte is 0. -/
theorem c7_sentinel_fails_closed_witness :
    resolveHash cutHashes 5 7 = sentinelHash ∧
    oneHotOr cutHashes sentinelHash = 0 ∧ oneHotFully cutHashes sentinelHash = 0 :=
  c7_sentinel_fails_closed cutHashes 5 7 cutHashes (by decide) (by decide)

/-- C7 counterexample to the claim as stated ("holds for every entry point,
including the batch path catboostPredictAll in part_002"): the batch path
maps categorical indices through `CUT_MAPPING[catIdx]` with no range check,
so the out-of-range cut index 5 reads the mapping array out of bounds
(undefined behaviour, embedded as `none`) instead of failing closed to the
sentinel hash. -/
theorem c7_counterexample :
    part002PredictAll Mtiny hsTiny [0, 0, 0, 0, 0, 0, 5, 0, 0] 1 6 3 = none := by decide

/-- C8: the batch entry point `catboostPredictAll` of part_002 produces, for
each sample `i` in input order, exactly the value the single-record
`catboostPredict` of the same file returns on that sample's 9 features: the
per-sample body coincides with the single-record scorer (for every sample,
valid or not — both fail identically on invalid ones), and the batch output
is the in-order sequence of single-record results over the flat input. -/
theorem c8_batch_matches_single (M : CatboostModel) (hs : String → ℤ)
    (inputData : List ℚ) (numSamples : ℕ) :
    (∀ s : List ℚ, part002SampleScore M hs s 6 3 = part002Predict M hs s 9) ∧
    part002PredictAll M hs inputData numSamples 6 3 =
      (List.range numSamples).mapM (fun i =>
        part002Predict M hs ((inputData.drop (i * 9)).take 9) 9) := by
  refine ⟨part002Sample_eq_single M hs, ?_⟩
  rw [part002PredictAll, part002Loop_eq_mapM, List.range_eq_range']

/-- C9 (amended): numeric binarization is monotone for border lists of at
most 255 entries (the spec's own realistic-model bound): if `x ≤ y` then the
binarized byte for `x` is at most the binarized byte for `y`, in both the
scalar and the SIMD paths. -/
theorem c9_binarize_monotone (borders : List ℚ) (x y : ℚ)
    (_hne : borders ≠ []) (hlen : borders.length ≤ 255) (hxy : x ≤ y) :
    binarizeScalar borders x ≤ binarizeScalar borders y ∧
    binarizeSimd borders x ≤ binarizeSimd borders y := by
  have hmono : countB borders x ≤ countB borders y :=
    List.countP_mono_left (fun b _ hb => by
      simp only [decide_eq_true_eq] at hb ⊢
      exact lt_of_lt_of_le hb hxy)
  have hlex : countB borders x ≤ borders.length := List.countP_le_length _
  have hley : countB borders y ≤ borders.length := List.countP_le_length _
  rw [binarizeScalar_eq_countB, binarizeScalar_eq_countB,
    binarizeSimd_eq_countB, binarizeSimd_eq_countB,
    Nat.mod_eq_of_lt (by omega), Nat.mod_eq_of_lt (by omega)]
  exact ⟨hmono, hmono⟩

/-- C9 witness at a concrete border list and pair of values. -/
theorem c9_binarize_monotone_witness :
    binarizeScalar [1, 2, 3] 0 ≤ binarizeScalar [1, 2, 3] 2 ∧
    binarizeSimd [1, 2, 3] 0 ≤ binarizeSimd [1, 2, 3] 2 :=
  c9_binarize_monotone [1, 2, 3] 0 2 (by decide) (by decide) (by decide)

set_option maxRecDepth 4000 in
/-- C9 counterexample to the claim as stated (no bound on the border-list
length): on the 256-entry list `wrapBorders` (255 zeros and one border at
10), the byte for 5 is 255 but the byte for 20 wraps to 0, so the stored
byte is not monotone even though 5 ≤ 20. -/
theorem c9_counterexample :
    (wrapBorders ≠ [] ∧ (5 : ℚ) ≤ 20) ∧
    binarizeScalar wrapBorders 5 = 255 ∧ binarizeScalar wrapBorders 20 = 0 ∧
    binarizeSimd wrapBorders 5 = 255 ∧ binarizeSimd wrapBorders 20 = 0 := by decide

/-- C10: in the batch entry point `catboostPredictAll` of part_002, the
mapping-array accesses `CUT_MAPPING[catIdx]`, `COLOR_MAPPING[catIdx]` and
`CLARITY_MAPPING[catIdx]` stay within bounds — the whole batch evaluates to
a result rather than the out-of-bounds `none` — under the caller-supplied
precondition that every sample's categorical values truncate to indices in
`[0,5)`, `[0,7)` and `[0,8)` respectively; the function itself performs no
feature-count or range validation (see the C7 counterexample for the
unguarded failure). -/
theorem c10_batch_mapping_in_bounds (M : CatboostModel) (hs : String → ℤ)
    (inputData : List ℚ) (numSamples : ℕ)
    (hvalid : ∀ i, i < numSamples → validCats ((inputData.drop (i * 9)).take 9)) :
    (part002PredictAll M hs inputData numSamples 6 3).isSome := by
  rw [part002PredictAll]
  exact part002Loop_isSome M hs inputData numSamples 0 (fun j hj => by
    have := hvalid j hj
    simpa using this)

/-- C10 witness: a one-sample batch with in-range categorical indices. -/
theorem c10_batch_mapping_in_bounds_witness :
    (part002PredictAll Mtiny hsTiny feats9 1 6 3).isSome :=
  c10_batch_mapping_in_bounds Mtiny hsTiny feats9 1 (by decide)
